import Mathlib

/-!
Verification of the NeoBuddy admin-panel client logic.

Shallow embedding of the reconciliation, occupancy, classification and
workflow functions of the repository:

* `src/src/AdminPanel.tsx` — room-list reconciler (INSERT / UPDATE / DELETE
  handlers of the `rooms` channel), the `user_sessions` channel handler that
  derives occupancy deltas, and `updateRoomUserCount`;
* `src/src/components/RoomList.jsx` — `getStatusBadge` and the promo-code
  status badge;
* `src/src/lib/supabase.js` — `roomService.deleteRoom`,
  `payoutService.rejectWithdrawal`;
* `src/src/components/PayoutManager.tsx` — the component-local
  `payoutService.rejectWithdrawal` and `handleConfirmReject`.

JavaScript numbers that hold counters are modelled as `Int`; nullable
columns are modelled as `Option`; a JavaScript falsy string test
(`!session?.room_id`) is modelled as equality with the empty string on a
non-null field.  Remote calls are modelled by explicit error oracles: the
outcome the remote store would return is passed in as a parameter and the
embedded function folds it exactly the way the `try/catch` in the source
does.
-/

/-- A row of the `rooms` table as used by `AdminPanel.tsx` (interface `Room`).
`session_date`, `session_start_time`, `session_end_time` are nullable in the
interface and are modelled as `Option String`. -/
structure Room where
  id : String
  name : String
  description : String
  url : String
  max_users : Int
  price_inr : Int
  session_date : Option String
  session_start_time : Option String
  session_end_time : Option String
  current_users : Int
deriving DecidableEq, Repr

/-- A row of the `user_sessions` table (interface `Session` in
`AdminPanel.tsx`): one participation record. -/
structure Session where
  id : String
  room_id : String
  username : String
  rewards_left : Int
  last_updated : String
deriving DecidableEq, Repr

/-- The UPDATE branch of the `user_sessions` channel handler in
`AdminPanel.tsx` (lines 126–158), returned as the ordered list of occupancy
deltas the handler passes to `updateRoomUserCount`.  The handler first takes
`session = payload.new || payload.old` (for UPDATE this is `payload.new`) and
returns when `!session?.room_id`, i.e. when the new record's `room_id` is
falsy (empty); then it returns when `oldSession.room_id !== newSession.room_id`;
otherwise it issues −1 when rewards went from positive to non-positive and +1
when they went from non-positive to positive. -/
def sessionUpdateDeltas (oldSession newSession : Session) : List Int :=
  if newSession.room_id = "" then []
  else if oldSession.room_id ≠ newSession.room_id then []
  else
    (if oldSession.rewards_left > 0 ∧ newSession.rewards_left ≤ 0 then [(-1 : Int)] else []) ++
    (if oldSession.rewards_left ≤ 0 ∧ newSession.rewards_left > 0 then [(1 : Int)] else [])

/-- `updateRoomUserCount` in `AdminPanel.tsx` (lines 188–211): the value the
read-modify-write cycle writes back, `Math.max(0, (room.current_users || 0) + change)`.
The fetched `current_users` may be null, hence `Option Int`. -/
def updateRoomUserCount (current_users : Option Int) (change : Int) : Int :=
  max 0 (current_users.getD 0 + change)

/-- Sequential composition of occupancy-updater write cycles: starting from a
stored counter value, each delta in the list is applied by one
`updateRoomUserCount` read-modify-write, the written value becoming the next
stored value. -/
def applyDeltas (start : Int) (deltas : List Int) : Int :=
  deltas.foldl (fun current change => updateRoomUserCount (some current) change) start

lemma updateRoomUserCount_nonneg (current_users : Option Int) (change : Int) :
    0 ≤ updateRoomUserCount current_users change := by
  unfold updateRoomUserCount
  exact le_max_left 0 _

lemma applyDeltas_nonneg_of_nonneg :
    ∀ (deltas : List Int) (start : Int), 0 ≤ start → 0 ≤ applyDeltas start deltas := by
  intro deltas
  induction deltas with
  | nil => intro start h; simpa [applyDeltas] using h
  | cons d rest ih =>
      intro start _
      have hstep : 0 ≤ updateRoomUserCount (some start) d := updateRoomUserCount_nonneg _ _
      simpa [applyDeltas, List.foldl_cons] using ih (updateRoomUserCount (some start) d) hstep

/-- C1: for every participation-record update event that the occupancy updater
processes (i.e. whose new record has a room id), if the room id on old and new
differ no delta is issued; otherwise rewards going positive → non-positive
issues exactly one −1 delta, rewards going non-positive → positive issues
exactly one +1 delta, and in every other case (including a 0 → 0 transition)
no delta is issued. -/
theorem sessionUpdate_delta_cases (o n : Session) (hroom : n.room_id ≠ "") :
    (o.room_id ≠ n.room_id → sessionUpdateDeltas o n = []) ∧
    (o.room_id = n.room_id →
      ((o.rewards_left > 0 ∧ n.rewards_left ≤ 0) → sessionUpdateDeltas o n = [-1]) ∧
      ((o.rewards_left ≤ 0 ∧ n.rewards_left > 0) → sessionUpdateDeltas o n = [1]) ∧
      (¬(o.rewards_left > 0 ∧ n.rewards_left ≤ 0) →
        ¬(o.rewards_left ≤ 0 ∧ n.rewards_left > 0) → sessionUpdateDeltas o n = [])) := by
  unfold sessionUpdateDeltas
  rw [if_neg hroom]
  constructor
  · intro hne
    rw [if_pos hne]
  · intro heq
    rw [if_neg (by simp [heq])]
    refine ⟨?_, ?_, ?_⟩
    · intro h
      have hnot : ¬(o.rewards_left ≤ 0 ∧ n.rewards_left > 0) := by
        intro hc
        exact absurd h.1 (not_lt.mpr hc.1)
      rw [if_pos h, if_neg hnot]
      rfl
    · intro h
      have hnot : ¬(o.rewards_left > 0 ∧ n.rewards_left ≤ 0) := by
        intro hc
        exact absurd hc.1 (not_lt.mpr h.1)
      rw [if_neg hnot, if_pos h]
      rfl
    · intro h1 h2
      rw [if_neg h1, if_neg h2]
      rfl

/-- C1 witness: a record moving from 5 remaining credits to 0 in the same room
yields exactly one −1 delta. -/
theorem sessionUpdate_delta_cases_witness :
    sessionUpdateDeltas ⟨"s1", "r1", "alice", 5, "t0"⟩ ⟨"s1", "r1", "alice", 0, "t1"⟩ = [-1] :=
  ((sessionUpdate_delta_cases ⟨"s1", "r1", "alice", 5, "t0"⟩ ⟨"s1", "r1", "alice", 0, "t1"⟩
    (by decide)).2 rfl).1 (by decide)

/-- C2: every value an occupancy-updater write cycle stores is
`max(0, current + delta)`, hence non-negative, so after any non-empty sequence
of updater operations the stored counter is ≥ 0 regardless of the starting
value. -/
theorem occupancy_counter_nonneg (start : Int) (deltas : List Int)
    (hne : deltas ≠ []) : 0 ≤ applyDeltas start deltas := by
  cases deltas with
  | nil => exact absurd rfl hne
  | cons d rest =>
      have hstep : 0 ≤ updateRoomUserCount (some start) d := updateRoomUserCount_nonneg _ _
      simpa [applyDeltas, List.foldl_cons] using
        applyDeltas_nonneg_of_nonneg rest (updateRoomUserCount (some start) d) hstep

/-- C2 witness: starting even from a corrupted negative counter, the sequence
of writes −1 then +1 leaves a non-negative counter. -/
theorem occupancy_counter_nonneg_witness : 0 ≤ applyDeltas (-5) [-1, 1] :=
  occupancy_counter_nonneg (-5) [-1, 1] (by decide)

/-- The INSERT branch of the `rooms` channel handler in `AdminPanel.tsx`
(lines 66–83): ignore the event when the new record's `session_date` is not
today's string (a null date also fails the equality), ignore it when the id is
already present, otherwise prepend the new record. -/
def roomInsertHandler (todayStr : String) (newRoom : Room) (prev : List Room) : List Room :=
  if newRoom.session_date ≠ some todayStr then prev
  else if prev.any (fun room => room.id == newRoom.id) then prev
  else newRoom :: prev

/-- The UPDATE branch of the `rooms` channel handler in `AdminPanel.tsx`
(lines 84–97): when the updated record's id is absent from the list and its
`session_date` is not today, the list is returned unchanged; otherwise every
entry whose id matches is replaced by the updated record. -/
def roomUpdateHandler (todayStr : String) (updatedRoom : Room) (prev : List Room) : List Room :=
  if ¬ prev.any (fun room => room.id == updatedRoom.id) ∧
      updatedRoom.session_date ≠ some todayStr then prev
  else prev.map (fun room => if room.id == updatedRoom.id then updatedRoom else room)

lemma any_id_eq_false_of_forall {u : Room} {prev : List Room}
    (habs : ∀ r ∈ prev, r.id ≠ u.id) :
    prev.any (fun room => room.id == u.id) = false := by
  rw [List.any_eq_false]
  intro r hr
  simpa using habs r hr

lemma map_replace_eq_self_of_absent {u : Room} :
    ∀ (prev : List Room), (∀ r ∈ prev, r.id ≠ u.id) →
      prev.map (fun room => if room.id == u.id then u else room) = prev := by
  intro prev
  induction prev with
  | nil => intro _; rfl
  | cons r rest ih =>
      intro habs
      have hr : r.id ≠ u.id := habs r (List.mem_cons_self r rest)
      have hrest : ∀ x ∈ rest, x.id ≠ u.id := fun x hx => habs x (List.mem_cons_of_mem r hx)
      simp only [List.map_cons, ih hrest]
      rw [if_neg (by simpa using hr)]

/-- C10: an update event whose record id is absent from the current list
leaves the list completely unchanged — the record is never added — even when
its scheduled date equals today's string. -/
theorem roomUpdate_absent_frame (todayStr : String) (updatedRoom : Room)
    (prev : List Room) (habs : ∀ r ∈ prev, r.id ≠ updatedRoom.id) :
    roomUpdateHandler todayStr updatedRoom prev = prev := by
  unfold roomUpdateHandler
  by_cases hguard : ¬ prev.any (fun room => room.id == updatedRoom.id) ∧
      updatedRoom.session_date ≠ some todayStr
  · rw [if_pos hguard]
  · rw [if_neg hguard]
    exact map_replace_eq_self_of_absent prev habs

/-- C10 witness: an update for an id not in the list, whose date equals the
handler's today string, is a no-op. -/
theorem roomUpdate_absent_frame_witness :
    roomUpdateHandler "2025-01-01"
      ⟨"r2", "B", "", "", 10, 50, some "2025-01-01", none, none, 0⟩
      [⟨"r1", "A", "", "", 10, 50, some "2025-01-01", none, none, 0⟩] =
      [⟨"r1", "A", "", "", 10, 50, some "2025-01-01", none, none, 0⟩] :=
  roomUpdate_absent_frame "2025-01-01"
    ⟨"r2", "B", "", "", 10, 50, some "2025-01-01", none, none, 0⟩
    [⟨"r1", "A", "", "", 10, 50, some "2025-01-01", none, none, 0⟩] (by decide)

/-- C5: folding an update event — when the updated id is absent and its date
is not today, the list is unchanged; when the id is present, the result is
exactly the pointwise replacement of matching entries (same length, entry `i`
becomes the updated record iff entry `i` had the matching id, all other
entries and their order unchanged), even when the updated date is not today. -/
theorem roomUpdate_fold_spec (todayStr : String) (updatedRoom : Room) (prev : List Room) :
    ((∀ r ∈ prev, r.id ≠ updatedRoom.id) → updatedRoom.session_date ≠ some todayStr →
      roomUpdateHandler todayStr updatedRoom prev = prev) ∧
    ((∃ r ∈ prev, r.id = updatedRoom.id) →
      (roomUpdateHandler todayStr updatedRoom prev).length = prev.length ∧
      ∀ i : Nat, (roomUpdateHandler todayStr updatedRoom prev)[i]? =
        (prev[i]?).map (fun room => if room.id == updatedRoom.id then updatedRoom else room)) := by
  constructor
  · intro habs _
    exact roomUpdate_absent_frame todayStr updatedRoom prev habs
  · intro hpres
    have hany : prev.any (fun room => room.id == updatedRoom.id) = true := by
      rw [List.any_eq_true]
      obtain ⟨r, hr, hid⟩ := hpres
      exact ⟨r, hr, by simpa using hid⟩
    have hres : roomUpdateHandler todayStr updatedRoom prev =
        prev.map (fun room => if room.id == updatedRoom.id then updatedRoom else room) := by
      unfold roomUpdateHandler
      rw [if_neg (by simp [hany])]
    refine ⟨?_, ?_⟩
    · rw [hres, List.length_map]
    · intro i
      rw [hres, List.getElem?_map]

/-- C5 witness: with the matching record present, an update whose date is no
longer today still replaces it in place and leaves the other entry alone. -/
theorem roomUpdate_fold_spec_witness :
    (roomUpdateHandler "2025-01-01"
      ⟨"r1", "A2", "", "", 10, 50, some "2024-12-31", none, none, 0⟩
      [⟨"r1", "A", "", "", 10, 50, some "2025-01-01", none, none, 0⟩,
       ⟨"r9", "Z", "", "", 10, 50, some "2025-01-01", none, none, 0⟩]).length = 2 ∧
    (roomUpdateHandler "2025-01-01"
      ⟨"r1", "A2", "", "", 10, 50, some "2024-12-31", none, none, 0⟩
      [⟨"r1", "A", "", "", 10, 50, some "2025-01-01", none, none, 0⟩,
       ⟨"r9", "Z", "", "", 10, 50, some "2025-01-01", none, none, 0⟩])[0]? =
      some ⟨"r1", "A2", "", "", 10, 50, some "2024-12-31", none, none, 0⟩ := by
  have h := (roomUpdate_fold_spec "2025-01-01"
      ⟨"r1", "A2", "", "", 10, 50, some "2024-12-31", none, none, 0⟩
      [⟨"r1", "A", "", "", 10, 50, some "2025-01-01", none, none, 0⟩,
       ⟨"r9", "Z", "", "", 10, 50, some "2025-01-01", none, none, 0⟩]).2
    ⟨⟨"r1", "A", "", "", 10, 50, some "2025-01-01", none, none, 0⟩, by decide, rfl⟩
  exact ⟨h.1, by rw [h.2 0]; decide⟩

/-- C6: the insert fold ignores a record dated other than today, ignores a
record whose id is already present, prepends otherwise, and folding the same
insert event twice yields the same list as folding it once. -/
theorem roomInsert_idempotent (todayStr : String) (newRoom : Room) (prev : List Room) :
    (newRoom.session_date ≠ some todayStr → roomInsertHandler todayStr newRoom prev = prev) ∧
    ((∃ r ∈ prev, r.id = newRoom.id) → roomInsertHandler todayStr newRoom prev = prev) ∧
    (newRoom.session_date = some todayStr → (∀ r ∈ prev, r.id ≠ newRoom.id) →
      roomInsertHandler todayStr newRoom prev = newRoom :: prev) ∧
    roomInsertHandler todayStr newRoom (roomInsertHandler todayStr newRoom prev) =
      roomInsertHandler todayStr newRoom prev := by
  refine ⟨?_, ?_, ?_, ?_⟩
  · intro hdate
    unfold roomInsertHandler
    rw [if_pos hdate]
  · intro hpres
    have hany : prev.any (fun room => room.id == newRoom.id) = true := by
      rw [List.any_eq_true]
      obtain ⟨r, hr, hid⟩ := hpres
      exact ⟨r, hr, by simpa using hid⟩
    unfold roomInsertHandler
    by_cases hdate : newRoom.session_date ≠ some todayStr
    · rw [if_pos hdate]
    · rw [if_neg hdate, if_pos hany]
  · intro hdate habs
    unfold roomInsertHandler
    rw [if_neg (by simp [hdate]), any_id_eq_false_of_forall habs]
    simp
  · by_cases hdate : newRoom.session_date ≠ some todayStr
    · unfold roomInsertHandler
      rw [if_pos hdate, if_pos hdate]
    · by_cases hany : prev.any (fun room => room.id == newRoom.id) = true
      · unfold roomInsertHandler
        rw [if_neg hdate, if_pos hany, if_neg hdate, if_pos hany]
      · have honce : roomInsertHandler todayStr newRoom prev = newRoom :: prev := by
          unfold roomInsertHandler
          rw [if_neg hdate, if_neg hany]
        rw [honce]
        unfold roomInsertHandler
        rw [if_neg hdate, if_pos (by simp [List.any_cons])]

/-- C6 witness: inserting a fresh record dated today prepends it, and folding
the same insert a second time leaves the list as after the first fold. -/
theorem roomInsert_idempotent_witness :
    roomInsertHandler "2025-01-03"
      ⟨"r7", "N", "", "", 10, 50, some "2025-01-03", none, none, 0⟩ [] =
      [⟨"r7", "N", "", "", 10, 50, some "2025-01-03", none, none, 0⟩] ∧
    roomInsertHandler "2025-01-03"
      ⟨"r7", "N", "", "", 10, 50, some "2025-01-03", none, none, 0⟩
      (roomInsertHandler "2025-01-03"
        ⟨"r7", "N", "", "", 10, 50, some "2025-01-03", none, none, 0⟩ []) =
      roomInsertHandler "2025-01-03"
        ⟨"r7", "N", "", "", 10, 50, some "2025-01-03", none, none, 0⟩ [] :=
  ⟨(roomInsert_idempotent "2025-01-03"
      ⟨"r7", "N", "", "", 10, 50, some "2025-01-03", none, none, 0⟩ []).2.2.1 rfl
      (by decide),
   (roomInsert_idempotent "2025-01-03"
      ⟨"r7", "N", "", "", 10, 50, some "2025-01-03", none, none, 0⟩ []).2.2.2⟩

/-- An hour/minute pair: the abstraction of the JavaScript `Date` produced by
`parseTimeString` in `RoomList.jsx`, of which `getStatusBadge` only reads
`getHours()` and `getMinutes()`. -/
structure TimeHM where
  hours : Nat
  minutes : Nat
deriving DecidableEq, Repr

/-- The projection of a room row that `getStatusBadge` in `RoomList.jsx`
(lines 296–377) reads.  The stored time strings are represented by their
parsed hour/minute pairs; `none` stands for a missing (falsy) time string,
for which `parseTimeString` returns null. -/
structure RoomBadgeView where
  session_date : Option String
  session_start_time : Option TimeHM
  session_end_time : Option TimeHM
  current_users : Int
  max_users : Int
deriving DecidableEq, Repr

/-- The three labels produced by `getStatusBadge`. -/
inductive Badge where
  | inactive
  | full
  | active
deriving DecidableEq, Repr

/-- The `isActive` value computed by `getStatusBadge`: false when either time
string failed to parse; otherwise the session date must equal today's
formatted date string and the current minutes-since-midnight must lie in
`[startMinutes, endMinutes]`, both comparisons inclusive
(`currentMinutes >= startMinutes && currentMinutes <= endMinutes`). -/
def isActive (todayFormatted : String) (currentMinutes : Nat) (room : RoomBadgeView) : Bool :=
  match room.session_start_time, room.session_end_time with
  | some startTime, some endTime =>
      decide (room.session_date = some todayFormatted) &&
      decide (startTime.hours * 60 + startTime.minutes ≤ currentMinutes) &&
      decide (currentMinutes ≤ endTime.hours * 60 + endTime.minutes)
  | _, _ => false

/-- `getStatusBadge` in `RoomList.jsx`: `if (!isActive)` return Inactive,
`else if (isFull)` return Full, else Active, where
`isFull = room.current_users >= room.max_users`. -/
def getStatusBadge (todayFormatted : String) (currentMinutes : Nat) (room : RoomBadgeView) : Badge :=
  if isActive todayFormatted currentMinutes room = false then Badge.inactive
  else if room.current_users ≥ room.max_users then Badge.full
  else Badge.active

/-- C3 counterexample: a session dated today whose window contains the current
time (the date/time gate passes) but whose occupancy has reached capacity is
labelled `full`, not `active` — refuting the claim that the classifier returns
`active` exactly when the gate passes. -/
theorem statusBadge_full_overrides_active :
    isActive "2025-01-01" 720
      ⟨some "2025-01-01", some ⟨9, 0⟩, some ⟨17, 0⟩, 10, 10⟩ = true ∧
    getStatusBadge "2025-01-01" 720
      ⟨some "2025-01-01", some ⟨9, 0⟩, some ⟨17, 0⟩, 10, 10⟩ = Badge.full ∧
    getStatusBadge "2025-01-01" 720
      ⟨some "2025-01-01", some ⟨9, 0⟩, some ⟨17, 0⟩, 10, 10⟩ ≠ Badge.active := by
  refine ⟨by decide, by decide, by decide⟩

/-- C3 (amended): the classifier returns `active` iff the date/time gate
passes and occupancy is below capacity; it returns `full` iff the gate passes
and occupancy is at or above capacity; whenever the gate fails it returns
`inactive` regardless of occupancy; and when both times are present the gate
passes iff the session date equals today's string and the current
minutes-since-midnight lies within [start, end] inclusive on both ends. -/
theorem statusBadge_classification (todayFormatted : String) (currentMinutes : Nat)
    (room : RoomBadgeView) :
    (getStatusBadge todayFormatted currentMinutes room = Badge.active ↔
      (isActive todayFormatted currentMinutes room = true ∧
        room.current_users < room.max_users)) ∧
    (getStatusBadge todayFormatted currentMinutes room = Badge.full ↔
      (isActive todayFormatted currentMinutes room = true ∧
        room.current_users ≥ room.max_users)) ∧
    (getStatusBadge todayFormatted currentMinutes room = Badge.inactive ↔
      isActive todayFormatted currentMinutes room = false) ∧
    (∀ (sd : Option String) (st et : TimeHM) (cu mu : Int),
      isActive todayFormatted currentMinutes ⟨sd, some st, some et, cu, mu⟩ = true ↔
        (sd = some todayFormatted ∧
          st.hours * 60 + st.minutes ≤ currentMinutes ∧
          currentMinutes ≤ et.hours * 60 + et.minutes)) := by
  refine ⟨?_, ?_, ?_, ?_⟩
  · unfold getStatusBadge
    cases hgate : isActive todayFormatted currentMinutes room with
    | false => simp
    | true =>
        by_cases hfull : room.current_users ≥ room.max_users
        · simp [hfull, not_lt.mpr hfull]
        · simp [hfull, lt_of_not_ge hfull]
  · unfold getStatusBadge
    cases hgate : isActive todayFormatted currentMinutes room with
    | false => simp
    | true =>
        by_cases hfull : room.current_users ≥ room.max_users
        · simp [hfull]
        · simp [hfull]
  · unfold getStatusBadge
    cases hgate : isActive todayFormatted currentMinutes room with
    | false => simp
    | true =>
        by_cases hfull : room.current_users ≥ room.max_users
        · simp [hfull]
        · simp [hfull]
  · intro sd st et cu mu
    unfold isActive
    simp [and_assoc]

/-- Operations the data-access layer issues against the remote store during a
room deletion. -/
inductive DbOp where
  | deleteUserSessions (room_id : String)
  | deleteRoomRow (id : String)
deriving DecidableEq, Repr

/-- The remote store visible to `roomService.deleteRoom`: the `rooms` table
and the `user_sessions` table. -/
structure Store where
  rooms : List Room
  user_sessions : List Session
deriving DecidableEq, Repr

/-- Effect of one successful delete call on the store: the first removes every
participation record of the room (`.eq('room_id', id)`), the second removes
the room row itself (`.eq('id', id)`). -/
def applyDbOp (store : Store) (op : DbOp) : Store :=
  match op with
  | DbOp.deleteUserSessions rid =>
      { store with user_sessions := store.user_sessions.filter (fun s => !(s.room_id == rid)) }
  | DbOp.deleteRoomRow i =>
      { store with rooms := store.rooms.filter (fun r => !(r.id == i)) }

/-- `roomService.deleteRoom` in `supabase.js` (lines 130–152), modelled with
error oracles for the two remote delete calls.  It returns the ordered list of
calls issued, the resulting store (a failed call has no effect), and the error
value the catch block returns.  The `user_sessions` delete is issued first; on
its error the function throws before ever issuing the `rooms` delete;
otherwise the `rooms` delete is issued and its error, if any, is returned. -/
def deleteRoom (sessionsError : Option String) (roomError : Option String)
    (id : String) (store : Store) : List DbOp × Store × Option String :=
  match sessionsError with
  | some e => ([DbOp.deleteUserSessions id], store, some e)
  | none =>
      let store1 := applyDbOp store (DbOp.deleteUserSessions id)
      match roomError with
      | some e => ([DbOp.deleteUserSessions id, DbOp.deleteRoomRow id], store1, some e)
      | none =>
          ([DbOp.deleteUserSessions id, DbOp.deleteRoomRow id],
            applyDbOp store1 (DbOp.deleteRoomRow id), none)

/-- C7: the participation-record delete is always issued strictly before any
room-row delete (the issued trace is either the sessions delete alone or the
sessions delete followed by the room delete), and when the sessions delete
fails the operation returns that error, never issues the room-row delete, and
leaves the `rooms` table — in particular the room row — untouched. -/
theorem deleteRoom_no_partial_delete (e : String) (roomError : Option String)
    (id : String) (store : Store) :
    ((deleteRoom (some e) roomError id store).1 = [DbOp.deleteUserSessions id] ∧
      DbOp.deleteRoomRow id ∉ (deleteRoom (some e) roomError id store).1 ∧
      (deleteRoom (some e) roomError id store).2.1.rooms = store.rooms ∧
      (deleteRoom (some e) roomError id store).2.2 = some e) ∧
    (∀ sessionsError : Option String,
      (deleteRoom sessionsError roomError id store).1 = [DbOp.deleteUserSessions id] ∨
      (deleteRoom sessionsError roomError id store).1 =
        [DbOp.deleteUserSessions id, DbOp.deleteRoomRow id]) := by
  constructor
  · refine ⟨rfl, by simp [deleteRoom], rfl, rfl⟩
  · intro sessionsError
    cases sessionsError with
    | some f => exact Or.inl rfl
    | none =>
        cases roomError with
        | some f => exact Or.inr rfl
        | none => exact Or.inr rfl

/-- A fetched `influencer_withdrawals` row as seen by the schema-introspection
check in `payoutService.rejectWithdrawal` (`supabase.js` lines 277–309):
`hasNotesColumn` records whether the string key for the notes column occurs in
the fetched record object (the JavaScript `in` test). -/
structure FetchedWithdrawal where
  id : String
  status : String
  hasNotesColumn : Bool
deriving DecidableEq, Repr

/-- The update object written by a withdrawal rejection: the status field,
and the notes field when it is included (`none` means the field is absent from
the update object). -/
structure WithdrawalUpdate where
  status : String
  notes : Option String
deriving DecidableEq, Repr

/-- `payoutService.rejectWithdrawal` in `src/src/lib/supabase.js`
(lines 277–309): first fetch the current record (the fetch outcome is the
`Except` parameter; a fetch error is thrown and returned), then build
`updateObj = { status: 'rejected' }`, adding the notes field only when the
notes column exists in the fetched record, and write it. -/
def rejectWithdrawalLib (fetched : Except String FetchedWithdrawal)
    (notes : String) : Except String WithdrawalUpdate :=
  match fetched with
  | Except.error e => Except.error e
  | Except.ok currentRecord =>
      let updateObj : WithdrawalUpdate := { status := "rejected", notes := none }
      if currentRecord.hasNotesColumn then
        Except.ok { updateObj with notes := some notes }
      else
        Except.ok updateObj

/-- The component-local `payoutService.rejectWithdrawal` in
`src/src/components/PayoutManager.tsx` (lines 62–79) — the implementation the
payout screen actually invokes: a single plain update that always carries both
the status and the notes field, with no prior fetch and no schema
introspection. -/
def rejectWithdrawalLocal (notes : String) : WithdrawalUpdate :=
  { status := "rejected", notes := some notes }

/-- C4 counterexample: the reject path the payout screen executes
(`handleConfirmReject` calls the component-local `rejectWithdrawal` of
`PayoutManager.tsx`) writes an update that contains the notes field even for a
record that has no notes column — and it issues no fetch at all — so the
claimed equivalence (notes present in the written update iff the current
record has a notes field) fails on the code. -/
theorem rejectWithdrawal_component_skips_introspection :
    (FetchedWithdrawal.mk "w1" "pending" false).hasNotesColumn = false ∧
    (rejectWithdrawalLocal "duplicate request").notes = some "duplicate request" := by
  exact ⟨rfl, rfl⟩

/-- C4 (amended): the data-access-layer `rejectWithdrawal` of `supabase.js`
does behave as claimed — after a successful fetch it writes a plain update
whose status is `rejected` and whose notes field is present iff the fetched
record has a notes column; but the payout screen invokes a component-local
`rejectWithdrawal` that performs the plain update with the notes field always
present and no introspection. -/
theorem rejectWithdrawal_notes_iff_column (currentRecord : FetchedWithdrawal)
    (notes : String) :
    rejectWithdrawalLib (Except.ok currentRecord) notes =
      Except.ok (WithdrawalUpdate.mk "rejected"
        (if currentRecord.hasNotesColumn then some notes else none)) ∧
    (rejectWithdrawalLocal notes).status = "rejected" ∧
    (rejectWithdrawalLocal notes).notes = some notes := by
  refine ⟨?_, rfl, rfl⟩
  by_cases h : currentRecord.hasNotesColumn = true
  · simp [rejectWithdrawalLib, h]
  · simp [rejectWithdrawalLib, h]

/-- The withdrawal-request row held in the payout screen state (interface
`WithdrawalRequest` in `PayoutManager.tsx`), restricted to the fields
`handleConfirmReject` reads. -/
structure WithdrawalRequest where
  id : String
  status : String
deriving DecidableEq, Repr

/-- The JavaScript `String.prototype.trim`: the string with leading and
trailing whitespace characters removed, written over the character list so it
evaluates by reduction. -/
def jsTrim (s : String) : String :=
  String.mk (((s.data.dropWhile Char.isWhitespace).reverse.dropWhile Char.isWhitespace).reverse)

/-- `handleConfirmReject` in `PayoutManager.tsx` (lines 220–238): returns
early when no withdrawal is selected or when `notes.trim()` is empty (falsy),
and otherwise issues exactly one remote reject call carrying the selected id
and the (untrimmed) notes, modelled as the `Option` of the issued call. -/
def handleConfirmReject (selectedWithdrawal : Option WithdrawalRequest)
    (notes : String) : Option (String × String) :=
  match selectedWithdrawal with
  | none => none
  | some w => if jsTrim notes = "" then none else some (w.id, notes)

/-- C8: whenever no withdrawal is selected or the trimmed note is empty (in
particular for a whitespace-only note), the confirm-reject handler issues no
remote call at all. -/
theorem confirmReject_requires_note (selectedWithdrawal : Option WithdrawalRequest)
    (notes : String)
    (h : selectedWithdrawal = none ∨ jsTrim notes = "") :
    handleConfirmReject selectedWithdrawal notes = none := by
  cases selectedWithdrawal with
  | none => rfl
  | some w =>
      cases h with
      | inl h0 => exact absurd h0 (by simp)
      | inr htrim => simp [handleConfirmReject, htrim]

/-- C8 witness: with a withdrawal selected but a whitespace-only note, no
remote call is issued. -/
theorem confirmReject_requires_note_witness :
    handleConfirmReject (some ⟨"w1", "pending"⟩) "   " = none :=
  confirmReject_requires_note (some ⟨"w1", "pending"⟩) "   " (Or.inr (by decide))

/-- A `promo_codes` row as read by the status badge in `RoomList.jsx`
(around line 1207).  `expiry_date` is the parsed timestamp of the stored
expiry value (`none` when the stored field is falsy — null or empty — which is
what `!code.expiry_date` tests), compared against the current timestamp with
the strict `>` of `new Date(code.expiry_date) > new Date()`. -/
structure PromoCode where
  code : String
  total_uses : Int
  max_uses : Int
  expiry_date : Option Int
deriving DecidableEq, Repr

/-- The promo-code status badge of `RoomList.jsx`:
`code.total_uses < code.max_uses && (!code.expiry_date || new Date(code.expiry_date) > new Date())`
selects the `Active` label, anything else the `Expired` label. -/
def promoStatusBadge (now : Int) (code : PromoCode) : String :=
  let expiryOk : Bool :=
    match code.expiry_date with
    | none => true
    | some d => decide (d > now)
  if code.total_uses < code.max_uses ∧ expiryOk = true then "Active" else "Expired"

/-- C9: a promo code is labelled `Active` iff its running usage count is
strictly below its usage cap and it either has no expiry or its expiry lies
strictly in the future; in particular a code with `total_uses = max_uses = 50`
and no expiry is labelled `Expired`, and the same code with `total_uses = 49`
is labelled `Active`. -/
theorem promoBadge_active_iff (now : Int) (code : PromoCode) :
    (promoStatusBadge now code = "Active" ↔
      (code.total_uses < code.max_uses ∧
        (code.expiry_date = none ∨ ∃ d, code.expiry_date = some d ∧ d > now))) ∧
    promoStatusBadge now ⟨"SAVE20", 50, 50, none⟩ = "Expired" ∧
    promoStatusBadge now ⟨"SAVE20", 49, 50, none⟩ = "Active" := by
  refine ⟨?_, ?_, ?_⟩
  · unfold promoStatusBadge
    cases hexp : code.expiry_date with
    | none =>
        by_cases huse : code.total_uses < code.max_uses
        · simp [huse]
        · simp [huse]
    | some d =>
        by_cases huse : code.total_uses < code.max_uses
        · by_cases hd : d > now
          · simp [huse, hd]
          · simp [huse, hd]
        · simp [huse]
  · unfold promoStatusBadge
    simp
  · unfold promoStatusBadge
    norm_num
